import Mathlib

/-
Verification of the Telemetry Decoding & Session Aggregation Engine of the
foot-pressure heatmap application.

The development shallowly embeds the relevant TypeScript code:
- `handleCharacteristicValueChanged` of the BLEManager class (the second class
  definition in src/utils/BLEManager.ts, the one the export refers to), which
  decodes a raw BLE notification payload into an 8-value pressure frame;
- `calculateAverages`, `startMeasurement` and `stopMeasurement` of the
  LeftSoleScreen component, which form the measurement-session state machine
  and the aggregator;
- `isValidPressureData` of the ConsoleViewer component (first definition),
  the telemetry-line validator used for display highlighting.

JavaScript strings are modelled as `List Char`; JavaScript numbers appearing
in these code paths are integer-valued, and the integer arithmetic is modelled
exactly over `Nat`/`Int` (`Math.round` of a non-negative exact quotient s/n is
`(2*s + n) / (2*n)` in natural division).  Fallible decoding returns `Option`.
-/

/-! ## JavaScript string primitives, modelled on `List Char` -/

/-- Whitespace recognised by `String.prototype.trim` (ASCII forms). -/
def isSpaceChar (c : Char) : Bool := c == ' ' || c == '\t' || c == '\n' || c == '\r'

/-- JavaScript line terminators, which `.` in a regular expression does not match. -/
def isLineTerm (c : Char) : Bool := c == '\n' || c == '\r' || c == '\u2028' || c == '\u2029'

/-- `s.trim()`. -/
def jsTrim (s : List Char) : List Char :=
  ((s.dropWhile isSpaceChar).reverse.dropWhile isSpaceChar).reverse

/-- `s.split(',')`: splitting an empty string gives `[""]`, and separators at the
ends produce empty fields, exactly as in JavaScript. -/
def splitOnComma : List Char → List (List Char)
  | [] => [[]]
  | c :: rest =>
    if c == ',' then [] :: splitOnComma rest
    else
      match splitOnComma rest with
      | t :: ts => (c :: t) :: ts
      | [] => [[c]]

/-- Decimal digit test, as in the grammars of `parseInt` and `Number` (radix 10). -/
def isDigitChar (c : Char) : Bool := '0' ≤ c && c ≤ '9'

/-- The natural number denoted by a list of decimal digits. -/
def digitsToNat (cs : List Char) : ℕ := cs.foldl (fun a c => 10 * a + (c.toNat - 48)) 0

/-- `parseInt(s, 10)`: skip leading whitespace, read an optional sign and then the
longest prefix of decimal digits; `none` models `NaN` (no digits found). -/
def jsParseInt (s : List Char) : Option ℤ :=
  let t := s.dropWhile isSpaceChar
  match t with
  | '-' :: rest =>
    let ds := rest.takeWhile isDigitChar
    if ds.isEmpty then none else some (-(digitsToNat ds : ℤ))
  | '+' :: rest =>
    let ds := rest.takeWhile isDigitChar
    if ds.isEmpty then none else some ((digitsToNat ds : ℤ))
  | _ =>
    let ds := t.takeWhile isDigitChar
    if ds.isEmpty then none else some ((digitsToNat ds : ℤ))

/-- Does `s` start with the pattern `p`? -/
def startsWithChars : List Char → List Char → Bool
  | [], _ => true
  | _ :: _, [] => false
  | p :: ps, c :: cs => p == c && startsWithChars ps cs

/-- `s.includes(pat)`: substring containment by scanning every start position. -/
def containsChars (pat : List Char) : List Char → Bool
  | [] => startsWithChars pat []
  | c :: cs => startsWithChars pat (c :: cs) || containsChars pat cs

/-- One step of matching the regular expression `tag(.+)` at the current position:
if `s` starts with the remaining tag characters, capture the following run of
non-line-terminator characters, which must be non-empty (`.+`). -/
def captureAfter : List Char → List Char → Option (List Char)
  | [], s =>
    let cap := s.takeWhile (fun c => !(isLineTerm c))
    if cap.isEmpty then none else some cap
  | _ :: _, [] => none
  | p :: ps, c :: cs => if p == c then captureAfter ps cs else none

/-- `s.match(/t1(.+)/ or /t2(.+)/)` for two alternative literal tags tried in this
order at each position, returning the first (leftmost) capture group, as a
JavaScript regular expression engine does for `PRESSURE_(?:LEFT|RIGHT):(.+)`. -/
def regexCapture (t1 t2 : List Char) : List Char → Option (List Char)
  | [] => none
  | c :: cs =>
    match captureAfter t1 (c :: cs) with
    | some r => some r
    | none =>
      match captureAfter t2 (c :: cs) with
      | some r => some r
      | none => regexCapture t1 t2 cs

/-! ## BLEManager.handleCharacteristicValueChanged (src/utils/BLEManager.ts) -/

/-- Largest uint32 value, the clamping bound `4294967295` used by the decoder. -/
def U32MAX : ℕ := 4294967295

def tagLeft : List Char := ("PRESSURE_LEFT:").data

def tagRight : List Char := ("PRESSURE_RIGHT:").data

/-- Per-token conversion used by both CSV branches:
`isNaN(num) ? 0 : Math.max(0, Math.min(4294967295, num))` applied to
`parseInt(val.trim(), 10)`. -/
def clampToken (tok : List Char) : ℕ :=
  match jsParseInt (jsTrim tok) with
  | none => 0
  | some n => (max 0 (min ((U32MAX : ℤ)) n)).toNat

/-- `while (values.length < 8) values.push(0)`. -/
def padTo8 (l : List ℕ) : List ℕ := l ++ List.replicate (8 - l.length) 0

/-- Branch 1: tagged CSV.  Guarded by
`dataString.includes('PRESSURE_LEFT:') || dataString.includes('PRESSURE_RIGHT:')`,
then `dataString.match(/PRESSURE_(?:LEFT|RIGHT):(.+)/)`; on a match, the capture
is trimmed, split on commas, each token converted by `clampToken`, truncated to
the first 8 values and right-padded with zeros. -/
def parseTagged (dataString : List Char) : Option (List ℕ) :=
  if containsChars tagLeft dataString || containsChars tagRight dataString then
    match regexCapture tagLeft tagRight dataString with
    | some cap => some (padTo8 (((splitOnComma (jsTrim cap)).map clampToken).take 8))
    | none => none
  else none

/-- Branch 2: untagged CSV.  Guarded by `dataString.includes(',')`; the trimmed
string is split on commas, tokens converted by `clampToken` and truncated to 8;
the frame is delivered (after zero-padding) only if `pressureValues.length >= 4`. -/
def parseCSV (dataString : List Char) : Option (List ℕ) :=
  if dataString.contains ',' then
    let vs := ((splitOnComma (jsTrim dataString)).map clampToken).take 8
    if 4 ≤ vs.length then some (padTo8 vs) else none
  else none

/-- A little-endian unsigned 32-bit integer from four bytes, as read by
`new Uint32Array(value.buffer)` on a little-endian host. -/
def u32le (b0 b1 b2 b3 : ℕ) : ℕ := b0 + 256 * b1 + 65536 * b2 + 16777216 * b3

/-- Group a byte list into little-endian uint32 values, four bytes per value. -/
def u32List : List ℕ → List ℕ
  | b0 :: b1 :: b2 :: b3 :: rest => u32le b0 b1 b2 b3 :: u32List rest
  | _ => []

/-- Branch 3: `value.byteLength === 32`, read as `Uint32Array` (8 channels). -/
def parseBin32 (bytes : List ℕ) : Option (List ℕ) :=
  if bytes.length = 32 then some (u32List bytes) else none

/-- Branch 4: `value.byteLength === 8`, read as `Uint8Array` (legacy format). -/
def parseBin8 (bytes : List ℕ) : Option (List ℕ) :=
  if bytes.length = 8 then some bytes else none

/-- The decoding cascade of `handleCharacteristicValueChanged` while collecting:
tagged CSV, then untagged CSV, then the 32-byte and 8-byte binary fallbacks;
`none` models the final unrecognised-format warning (frame dropped).  `text` is
the `TextDecoder` decoding of the payload and `bytes` its raw bytes. -/
def handleCharacteristicValueChanged (text : List Char) (bytes : List ℕ) :
    Option (List ℕ) :=
  match parseTagged text with
  | some r => some r
  | none =>
    match parseCSV text with
    | some r => some r
    | none =>
      match parseBin32 bytes with
      | some r => some r
      | none => parseBin8 bytes

example : handleCharacteristicValueChanged (("PRESSURE_LEFT:50,100,150").data) [] =
    some [50, 100, 150, 0, 0, 0, 0, 0] := by decide

example : handleCharacteristicValueChanged (("a,b,c,d").data) [] =
    some [0, 0, 0, 0, 0, 0, 0, 0] := by decide

example : handleCharacteristicValueChanged (("hello").data) [1, 2, 3, 4, 5, 6, 7, 8] =
    some [1, 2, 3, 4, 5, 6, 7, 8] := by decide

/-! ## LeftSoleScreen: aggregator (calculateAverages) -/

/-- One decoded 8-channel pressure frame (the `values` array of a PressureData
entry); every decoder success delivers exactly 8 values. -/
abbrev Reading := Fin 8 → ℕ

/-- One step of `data.values.forEach((value, index) => sums[index] += value)`. -/
def accumReading (acc : Fin 8 → ℕ) (values : Reading) : Fin 8 → ℕ :=
  fun i => acc i + values i

/-- The `sums` array: `Array(8).fill(0)` accumulated over `pressureData`. -/
def sums (pressureData : List Reading) : Fin 8 → ℕ :=
  pressureData.foldl accumReading (fun _ => 0)

/-- `Math.round(s / n)` for non-negative integers under exact arithmetic:
round half up, that is the floor of s/n + 1/2. -/
def jsRound (s n : ℕ) : ℕ := (2 * s + n) / (2 * n)

/-- `const averages = sums.map(sum => Math.round(sum / pressureData.length))`. -/
def averages (pressureData : List Reading) : List ℕ :=
  (List.finRange 8).map (fun i => jsRound (sums pressureData i) pressureData.length)

/-- `Math.max(...l)` for a list of non-negative integers. -/
def listMax (l : List ℕ) : ℕ := l.foldr max 0

/-- `l.indexOf(a)`: index of the first occurrence (our callers always search for
an element of the list, so the not-found value is never observed). -/
def listIndexOf (a : ℕ) : List ℕ → ℕ
  | [] => 0
  | x :: xs => if x = a then 0 else listIndexOf a xs + 1

/-- `const maxValue = Math.max(...averages)`. -/
def maxValue (pressureData : List Reading) : ℕ := listMax (averages pressureData)

/-- `const maxIndex = averages.indexOf(maxValue)`. -/
def maxIndex (pressureData : List Reading) : ℕ :=
  listIndexOf (maxValue pressureData) (averages pressureData)

/-- `Math.round(averages.reduce((sum, val) => sum + val, 0) / averages.length)`. -/
def totalAverage (pressureData : List Reading) : ℕ :=
  jsRound ((averages pressureData).foldl (fun s v => s + v) 0)
    (averages pressureData).length

/-! ## LeftSoleScreen: session state and transitions -/

/-- The component state touched by the measurement-session logic.  `timerActive`
models whether `timerRef.current` holds a live interval. -/
structure AppState where
  bleConnected : Bool
  isRecording : Bool
  timeRemaining : ℕ
  pressureData : List Reading
  currentPressures : List ℕ
  averagePressures : List ℕ
  consoleLog : List (List Char)
  testCompleted : Bool
  maxPressurePoint : ℕ × ℕ
  averagePressure : ℕ
  timerActive : Bool

def MSG_START1 : List Char := ("[INFO] Starting 20-second measurement...").data

def MSG_START2 : List Char := ("[INFO] Please stand still on the pressure sensors").data

def MSG_DONE : List Char := ("[INFO] Measurement completed. Calculating averages...").data

def MSG_NODATA : List Char := ("[WARNING] No data collected during measurement").data

def msgProcessed (n : ℕ) : List Char :=
  ("[INFO] Processed ").data ++ Nat.toDigits 10 n ++ (" data points").data

def msgAvgPressure (v : ℕ) : List Char :=
  ("[INFO] Average pressure: ").data ++ Nat.toDigits 10 v ++ (" kPa").data

def msgMaxPressure (i v : ℕ) : List Char :=
  ("[INFO] Max pressure: P").data ++ Nat.toDigits 10 (i + 1) ++ (" = ").data ++
    Nat.toDigits 10 v ++ (" kPa").data

/-- `l.join(', ')`. -/
def joinCommaSpace : List (List Char) → List Char
  | [] => []
  | [x] => x
  | x :: y :: rest => x ++ (", ").data ++ joinCommaSpace (y :: rest)

def msgAvgValues (l : List ℕ) : List Char :=
  ("[INFO] Averaged pressure values: ").data ++ joinCommaSpace (l.map (Nat.toDigits 10))

/-- `calculateAverages` as a state transformer: early return on an empty sample
set, otherwise store the per-channel averages, the peak point, the overall
average, and append the four report log lines. -/
def calculateAverages (s : AppState) : AppState :=
  if s.pressureData.length = 0 then s
  else
    { s with
      averagePressures := averages s.pressureData
      maxPressurePoint := (maxIndex s.pressureData, maxValue s.pressureData)
      averagePressure := totalAverage s.pressureData
      consoleLog := s.consoleLog ++
        [msgProcessed s.pressureData.length,
         msgAvgPressure (totalAverage s.pressureData),
         msgMaxPressure (maxIndex s.pressureData) (maxValue s.pressureData),
         msgAvgValues (averages s.pressureData)] }

/-- `startMeasurement`.  The only precondition checked by the source is
`bleConnected`; without a connection it alerts and returns with no state
change.  Otherwise it unconditionally resets the session: recording on,
completion flag off, empty sample buffer, zeroed averages, two log lines,
20 seconds remaining, interval timer installed. -/
def startMeasurement (s : AppState) : AppState :=
  if s.bleConnected = false then s
  else
    { s with
      isRecording := true
      testCompleted := false
      pressureData := []
      averagePressures := List.replicate 8 0
      consoleLog := s.consoleLog ++ [MSG_START1, MSG_START2]
      timeRemaining := 20
      timerActive := true }

/-- `stopMeasurement`: clear the timer, stop recording; with at least one
buffered frame compute the averages, set the completion flag and log
completion; with no data only log the no-data warning (the completion flag and
the summary fields are left untouched). -/
def stopMeasurement (s : AppState) : AppState :=
  let s1 := { s with timerActive := false, isRecording := false }
  if 0 < s.pressureData.length then
    let s2 := calculateAverages s1
    { s2 with testCompleted := true, consoleLog := s2.consoleLog ++ [MSG_DONE] }
  else
    { s1 with consoleLog := s1.consoleLog ++ [MSG_NODATA] }

/-! ## The Number() conversion (used by ConsoleViewer.isValidPressureData)

`Number(s)` parses a whole StringNumericLiteral.  We record the parsed literal
exactly: a decimal literal is kept as its digit string value `mant`, the number
of fraction digits `fracLen` and the exponent `exp` (so it denotes
±mant·10^(exp−fracLen)); hex/octal/binary literals and the infinities are
separate cases.  `none` models `NaN`. -/

inductive JsNum where
  | dec (neg : Bool) (mant : ℕ) (fracLen : ℕ) (exp : ℤ)
  | radix (n : ℕ)
  | inf (neg : Bool)
deriving DecidableEq

def isHexDigitChar (c : Char) : Bool :=
  isDigitChar c || ('a' ≤ c && c ≤ 'f') || ('A' ≤ c && c ≤ 'F')

def hexDigitVal (c : Char) : ℕ :=
  if isDigitChar c then c.toNat - 48
  else if 'a' ≤ c && c ≤ 'f' then c.toNat - 87
  else c.toNat - 55

def isBinDigitChar (c : Char) : Bool := c == '0' || c == '1'

def isOctDigitChar (c : Char) : Bool := '0' ≤ c && c ≤ '7'

def radixToNat (r : ℕ) (dval : Char → ℕ) (cs : List Char) : ℕ :=
  cs.foldl (fun a c => r * a + dval c) 0

/-- Split a candidate decimal literal at the first `e`/`E` into mantissa part
and, when present, exponent part. -/
def splitOnExp : List Char → List Char × Option (List Char)
  | [] => ([], none)
  | c :: cs =>
    if c == 'e' || c == 'E' then ([], some cs)
    else
      let p := splitOnExp cs
      (c :: p.1, p.2)

/-- Parse `Digits . Digits?` / `. Digits` / `Digits`, returning the digit-string
value and the number of fraction digits; at least one digit is required. -/
def decMantissa (cs : List Char) : Option (ℕ × ℕ) :=
  let ip := cs.takeWhile isDigitChar
  let rest := cs.dropWhile isDigitChar
  match rest with
  | [] => if ip.isEmpty then none else some (digitsToNat ip, 0)
  | '.' :: fr =>
    if fr.all isDigitChar && !(ip.isEmpty && fr.isEmpty) then
      some (digitsToNat (ip ++ fr), fr.length)
    else none
  | _ => none

/-- Parse an ExponentPart body: optional sign followed by at least one digit. -/
def decExponent : List Char → Option ℤ
  | '+' :: ds => if !ds.isEmpty && ds.all isDigitChar then some ((digitsToNat ds : ℤ)) else none
  | '-' :: ds => if !ds.isEmpty && ds.all isDigitChar then some (-(digitsToNat ds : ℤ)) else none
  | ds => if !ds.isEmpty && ds.all isDigitChar then some ((digitsToNat ds : ℤ)) else none

/-- An unsigned decimal literal or `Infinity`, with the sign already consumed. -/
def unsignedDec (neg : Bool) (cs : List Char) : Option JsNum :=
  if cs = ("Infinity").data then some (JsNum.inf neg)
  else
    let p := splitOnExp cs
    match decMantissa p.1, p.2 with
    | some m, none => some (JsNum.dec neg m.1 m.2 0)
    | some m, some ecs => (decExponent ecs).map (fun e => JsNum.dec neg m.1 m.2 e)
    | none, _ => none

/-- `Number(s)`: trim; an empty remainder denotes 0; a `0x`/`0o`/`0b` literal
(unsigned only) denotes its digits in that radix; otherwise an optionally
signed decimal literal or `Infinity`. -/
def jsNumber (s : List Char) : Option JsNum :=
  match jsTrim s with
  | [] => some (JsNum.dec false 0 0 0)
  | '0' :: 'x' :: rest | '0' :: 'X' :: rest =>
    if !rest.isEmpty && rest.all isHexDigitChar then
      some (JsNum.radix (radixToNat 16 hexDigitVal rest))
    else none
  | '0' :: 'b' :: rest | '0' :: 'B' :: rest =>
    if !rest.isEmpty && rest.all isBinDigitChar then
      some (JsNum.radix (radixToNat 2 (fun c => c.toNat - 48) rest))
    else none
  | '0' :: 'o' :: rest | '0' :: 'O' :: rest =>
    if !rest.isEmpty && rest.all isOctDigitChar then
      some (JsNum.radix (radixToNat 8 (fun c => c.toNat - 48) rest))
    else none
  | '-' :: rest => unsignedDec true rest
  | '+' :: rest => unsignedDec false rest
  | t => unsignedDec false t

/-- `!isNaN(Number(s))`. -/
def jsNumberValid (s : List Char) : Bool := (jsNumber s).isSome

/-! ## ConsoleViewer.isValidPressureData (first definition in ConsoleViewer.tsx) -/

def pressureMark : List Char := ("PRESSURE_").data

def tagLeftSp : List Char := ("PRESSURE_LEFT: ").data

def tagRightSp : List Char := ("PRESSURE_RIGHT: ").data

/-- The console-line validator: a line without `PRESSURE_` is vacuously valid; a
line with it must match `/PRESSURE_(?:LEFT|RIGHT): (.+)/`, and the capture,
split on commas, must have exactly 8 tokens whose trimmed forms all convert to
numbers (`!isNaN(Number(val.trim()))`). -/
def isValidPressureData (log : List Char) : Bool :=
  if !(containsChars pressureMark log) then true
  else
    match regexCapture tagLeftSp tagRightSp log with
    | none => false
    | some cap =>
      let values := splitOnComma cap
      values.length == 8 && values.all (fun v => jsNumberValid (jsTrim v))

example : isValidPressureData (("PRESSURE_LEFT: 1,2,3").data) = false := by decide

example : isValidPressureData (("PRESSURE_LEFT: 1,2,3,4,5,6,7,8").data) = true := by decide

example : isValidPressureData (("[INFO] Device disconnected").data) = true := by decide

/-! ## Spec-side definitions

These render the wording of the specification claims; the theorems below relate
them to the source-derived definitions above. -/

/-- Round-half-up division as the spec words it: the integer quotient, plus one
when the remainder is at least half the divisor. -/
def roundHalfUp (s n : ℕ) : ℕ := s / n + (if n ≤ 2 * (s % n) then 1 else 0)

/-- The exact sum of one channel across a reading sequence. -/
def channelTotal (pressureData : List Reading) (i : Fin 8) : ℕ :=
  (pressureData.map (fun r => r i)).sum

/-- The exact sum of all raw samples of a reading sequence. -/
def rawTotal (pressureData : List Reading) : ℕ :=
  ∑ i : Fin 8, channelTotal pressureData i

/-- Spec-side tagged-CSV token rule (as amended): a token that does not parse as
an integer contributes 0, and a parsed integer is clamped to the nearest
boundary of the interval [0, U32MAX]. -/
def specToken (tok : List Char) : ℕ :=
  match jsParseInt (jsTrim tok) with
  | none => 0
  | some n => if n < 0 then 0 else if (U32MAX : ℤ) < n then U32MAX else n.toNat

/-- Spec-side: the rational value denoted by a parsed numeric literal, when it
is finite. -/
def JsNum.toRat : JsNum → Option ℚ
  | .dec neg m f e => some ((if neg then (-1 : ℚ) else 1) * (m : ℚ) * (10 : ℚ) ^ (e - (f : ℤ)))
  | .radix n => some ((n : ℚ))
  | .inf _ => none

/-- Spec-side: the parsed numeric literal denotes a non-negative number. -/
def JsNum.IsNonneg : JsNum → Prop
  | .dec neg m f e => 0 ≤ (if neg then (-1 : ℚ) else 1) * (m : ℚ) * (10 : ℚ) ^ (e - (f : ℤ))
  | .radix _ => True
  | .inf neg => neg = false

/-! ## Concrete inputs used by witnesses and counterexamples -/

/-- A reading whose first four channels hold 2: averaged over three readings the
per-channel rounding (2/3 to 1) inflates the two-stage overall average. -/
def rTwoStage : Reading := fun i => if i.val < 4 then 2 else 0

/-- A three-reading sequence separating two-stage from single-stage rounding. -/
def pdTwoStage : List Reading := [rTwoStage, fun _ => 0, fun _ => 0]

/-- The tie-break example of the specification: averages begin 100, 100, 50. -/
def rTie : Reading := fun i => [100, 100, 50, 0, 0, 0, 0, 0].getD i.val 0

/-- An empty recording session about to be stopped: connected, recording, five
seconds left, no readings buffered. -/
def c4state : AppState :=
  { bleConnected := true
    isRecording := true
    timeRemaining := 5
    pressureData := []
    currentPressures := List.replicate 8 0
    averagePressures := List.replicate 8 0
    consoleLog := []
    testCompleted := false
    maxPressurePoint := (0, 0)
    averagePressure := 0
    timerActive := true }

/-- A live recording session with one buffered reading and seven seconds left,
used to probe start-while-recording. -/
def c5state : AppState :=
  { bleConnected := true
    isRecording := true
    timeRemaining := 7
    pressureData := [fun _ => 1]
    currentPressures := List.replicate 8 1
    averagePressures := List.replicate 8 0
    consoleLog := []
    testCompleted := false
    maxPressurePoint := (0, 0)
    averagePressure := 0
    timerActive := true }

/-! ## Helper lemmas -/

theorem jsRound_eq_roundHalfUp (s n : ℕ) (hn : 0 < n) :
    jsRound s n = roundHalfUp s n := by
  obtain ⟨q, r, hrn, rfl⟩ : ∃ q r, r < n ∧ s = n * q + r :=
    ⟨s / n, s % n, Nat.mod_lt _ hn, (Nat.div_add_mod s n).symm⟩
  unfold jsRound roundHalfUp
  have h1 : 2 * (n * q + r) + n = 2 * n * q + (2 * r + n) := by ring
  have h2 : (2 * n * q + (2 * r + n)) / (2 * n) = q + (2 * r + n) / (2 * n) := by
    rw [Nat.mul_add_div (by omega)]
  have h3 : (n * q + r) / n = q + r / n := by rw [Nat.mul_add_div hn]
  have h4 : (n * q + r) % n = r := by
    rw [Nat.mul_add_mod, Nat.mod_eq_of_lt hrn]
  rw [h1, h2, h3, h4, Nat.div_eq_of_lt hrn]
  by_cases hc : n ≤ 2 * r
  · have : (2 * r + n) / (2 * n) = 1 :=
      Nat.div_eq_of_lt_le (by omega) (by omega)
    simp [hc, this]
  · have : (2 * r + n) / (2 * n) = 0 := Nat.div_eq_of_lt (by omega)
    simp [hc, this]

theorem foldl_add_go (l : List ℕ) (a : ℕ) :
    l.foldl (fun s v => s + v) a = a + l.sum := by
  induction l generalizing a with
  | nil => simp
  | cons x xs ih => simp [ih, Nat.add_assoc]

theorem sums_go (pd : List Reading) (init : Fin 8 → ℕ) (i : Fin 8) :
    (pd.foldl accumReading init) i = init i + (pd.map (fun r => r i)).sum := by
  induction pd generalizing init with
  | nil => simp
  | cons r rest ih => simp [accumReading, ih, Nat.add_assoc]

theorem sums_apply (pd : List Reading) (i : Fin 8) :
    sums pd i = channelTotal pd i := by
  simp [sums, channelTotal, sums_go]

theorem averages_length (pd : List Reading) : (averages pd).length = 8 := by
  simp [averages]

theorem averages_ne_nil (pd : List Reading) : averages pd ≠ [] := by
  have := averages_length pd
  intro h
  rw [h] at this
  simp at this

theorem getD_map_finRange (f : Fin 8 → ℕ) (i : Fin 8) :
    (((List.finRange 8).map f).getD i.val 0) = f i := by
  fin_cases i <;> rfl

theorem averages_getD (pd : List Reading) (i : Fin 8) :
    (averages pd).getD i.val 0 = jsRound (sums pd i) pd.length :=
  getD_map_finRange _ i

theorem mem_averages (pd : List Reading) (v : ℕ) :
    v ∈ averages pd ↔ ∃ i : Fin 8, jsRound (sums pd i) pd.length = v := by
  simp [averages, List.mem_map]

theorem averages_sum (pd : List Reading) :
    (averages pd).sum = ∑ i : Fin 8, jsRound (sums pd i) pd.length := by
  rw [averages, Fin.sum_univ_def]

theorem totalAverage_eq (pd : List Reading) :
    totalAverage pd = jsRound (averages pd).sum 8 := by
  rw [totalAverage, foldl_add_go, Nat.zero_add, averages_length]

theorem le_listMax (l : List ℕ) (x : ℕ) (hx : x ∈ l) : x ≤ listMax l := by
  induction l with
  | nil => cases hx
  | cons y ys ih =>
    rcases List.mem_cons.mp hx with h | h
    · simp [listMax, h, Nat.le_max_left]
    · calc x ≤ listMax ys := ih h
        _ ≤ listMax (y :: ys) := by simp [listMax, Nat.le_max_right]

theorem listMax_cons (y : ℕ) (ys : List ℕ) : listMax (y :: ys) = max y (listMax ys) := rfl

theorem listMax_mem (l : List ℕ) (h : l ≠ []) : listMax l ∈ l := by
  induction l with
  | nil => exact absurd rfl h
  | cons y ys ih =>
    by_cases hys : ys = []
    · subst hys
      simp [listMax]
    · rcases Nat.le_total (listMax ys) y with hle | hle
      · rw [listMax_cons, Nat.max_eq_left hle]
        exact List.mem_cons_self _ _
      · rw [listMax_cons, Nat.max_eq_right hle]
        exact List.mem_cons_of_mem _ (ih hys)

theorem listIndexOf_lt_length (a : ℕ) (l : List ℕ) (h : a ∈ l) :
    listIndexOf a l < l.length := by
  induction l with
  | nil => cases h
  | cons y ys ih =>
    by_cases hy : y = a
    · simp [listIndexOf, hy]
    · rcases List.mem_cons.mp h with h1 | h1
      · exact absurd h1.symm hy
      · simpa [listIndexOf, hy] using ih h1

theorem getD_listIndexOf (a : ℕ) (l : List ℕ) (h : a ∈ l) :
    l.getD (listIndexOf a l) 0 = a := by
  induction l with
  | nil => cases h
  | cons y ys ih =>
    by_cases hy : y = a
    · simp [listIndexOf, hy]
    · rcases List.mem_cons.mp h with h1 | h1
      · exact absurd h1.symm hy
      · simpa [listIndexOf, hy] using ih h1

theorem listIndexOf_min (a : ℕ) (l : List ℕ) (j : ℕ) (hj : j < listIndexOf a l) :
    l.getD j 0 ≠ a := by
  induction l generalizing j with
  | nil => simp [listIndexOf] at hj
  | cons y ys ih =>
    by_cases hy : y = a
    · simp [listIndexOf, hy] at hj
    · cases j with
      | zero => simpa using hy
      | succ k =>
        simp only [listIndexOf, hy, if_false] at hj
        simpa using ih k (by omega)

theorem exists_min_mem (l : List ℕ) (h : l ≠ []) : ∃ m ∈ l, ∀ v ∈ l, m ≤ v := by
  induction l with
  | nil => exact absurd rfl h
  | cons y ys ih =>
    by_cases hys : ys = []
    · subst hys
      exact ⟨y, by simp⟩
    · obtain ⟨m, hm, hmin⟩ := ih hys
      rcases Nat.le_total y m with hle | hle
      · exact ⟨y, List.mem_cons_self _ _, by
          intro v hv
          rcases List.mem_cons.mp hv with rfl | hv
          · exact Nat.le_refl _
          · exact Nat.le_trans hle (hmin v hv)⟩
      · exact ⟨m, List.mem_cons_of_mem _ hm, by
          intro v hv
          rcases List.mem_cons.mp hv with rfl | hv
          · exact hle
          · exact hmin v hv⟩

theorem sum_le_length_mul (l : List ℕ) (M : ℕ) (h : ∀ v ∈ l, v ≤ M) :
    l.sum ≤ l.length * M := by
  induction l with
  | nil => simp
  | cons y ys ih =>
    have hy := h y (List.mem_cons_self _ _)
    have hys := ih (fun v hv => h v (List.mem_cons_of_mem _ hv))
    simp only [List.sum_cons, List.length_cons]
    calc y + ys.sum ≤ M + ys.length * M := Nat.add_le_add hy hys
      _ = (ys.length + 1) * M := by ring

theorem length_mul_le_sum (l : List ℕ) (m : ℕ) (h : ∀ v ∈ l, m ≤ v) :
    l.length * m ≤ l.sum := by
  induction l with
  | nil => simp
  | cons y ys ih =>
    have hy := h y (List.mem_cons_self _ _)
    have hys := ih (fun v hv => h v (List.mem_cons_of_mem _ hv))
    simp only [List.sum_cons, List.length_cons]
    calc (ys.length + 1) * m = m + ys.length * m := by ring
      _ ≤ y + ys.sum := Nat.add_le_add hy hys

theorem startsWithChars_append (p s : List Char) : startsWithChars p (p ++ s) = true := by
  induction p with
  | nil => rfl
  | cons c cs ih => simp [startsWithChars, ih]

theorem containsChars_of_startsWith (p s : List Char) (hp : p ≠ [])
    (h : startsWithChars p s = true) : containsChars p s = true := by
  cases s with
  | nil =>
    cases p with
    | nil => exact absurd rfl hp
    | cons a as => simp [startsWithChars] at h
  | cons c cs => simp [containsChars, h]

theorem containsChars_append_self (p s : List Char) (hp : p ≠ []) :
    containsChars p (p ++ s) = true :=
  containsChars_of_startsWith p (p ++ s) hp (startsWithChars_append p s)

theorem captureAfter_self (p rest : List Char) (h1 : rest ≠ [])
    (h2 : ∀ c ∈ rest, isLineTerm c = false) :
    captureAfter p (p ++ rest) = some rest := by
  induction p with
  | nil =>
    simp only [List.nil_append, captureAfter]
    rw [List.takeWhile_eq_self_iff.mpr (by intro c hc; simp [h2 c hc])]
    simp [List.isEmpty_iff, h1]
  | cons c cs ih => simp [captureAfter, ih]

theorem regexCapture_first (t1 t2 s r : List Char) (hs : s ≠ [])
    (h : captureAfter t1 s = some r) : regexCapture t1 t2 s = some r := by
  cases s with
  | nil => exact absurd rfl hs
  | cons c cs => simp [regexCapture, h]

theorem regexCapture_second (t1 t2 s r : List Char) (hs : s ≠ [])
    (h1 : captureAfter t1 s = none) (h2 : captureAfter t2 s = some r) :
    regexCapture t1 t2 s = some r := by
  cases s with
  | nil => exact absurd rfl hs
  | cons c cs => simp [regexCapture, h1, h2]

theorem clampToken_eq_specToken (tok : List Char) : clampToken tok = specToken tok := by
  unfold clampToken specToken
  cases jsParseInt (jsTrim tok) with
  | none => rfl
  | some n =>
    simp only [U32MAX]
    split_ifs <;> omega

theorem clampToken_le (tok : List Char) : clampToken tok ≤ U32MAX := by
  rw [clampToken_eq_specToken]
  unfold specToken
  cases jsParseInt (jsTrim tok) with
  | none => exact Nat.zero_le _
  | some n =>
    simp only [U32MAX]
    split_ifs <;> omega

theorem padTo8_length (l : List ℕ) (h : l.length ≤ 8) : (padTo8 l).length = 8 := by
  simp only [padTo8, List.length_append, List.length_replicate]
  omega

theorem mem_padTo8 (l : List ℕ) (x : ℕ) (hx : x ∈ padTo8 l) : x ∈ l ∨ x = 0 := by
  rcases List.mem_append.mp hx with h | h
  · exact Or.inl h
  · exact Or.inr (List.eq_of_mem_replicate h)

theorem u32List_length : ∀ bs : List ℕ, (u32List bs).length = bs.length / 4
  | [] => rfl
  | [_] => by
    show ([] : List ℕ).length = 1 / 4
    norm_num
  | [_, _] => by
    show ([] : List ℕ).length = 2 / 4
    norm_num
  | [_, _, _] => by
    show ([] : List ℕ).length = 3 / 4
    norm_num
  | _ :: _ :: _ :: _ :: rest => by
    simp only [u32List, List.length_cons, u32List_length rest]
    omega

theorem u32List_le : ∀ bs : List ℕ, (∀ b ∈ bs, b < 256) → ∀ x ∈ u32List bs, x ≤ U32MAX
  | [], _ => by simp [u32List]
  | [_], _ => by simp [u32List]
  | [_, _], _ => by simp [u32List]
  | [_, _, _], _ => by simp [u32List]
  | b0 :: b1 :: b2 :: b3 :: rest, h => by
    intro x hx
    have g0 := h b0 (by simp)
    have g1 := h b1 (by simp)
    have g2 := h b2 (by simp)
    have g3 := h b3 (by simp)
    simp only [u32List, List.mem_cons] at hx
    rcases hx with rfl | hx
    · unfold u32le U32MAX
      omega
    · exact u32List_le rest (fun b hb => h b (by simp [hb])) x hx

theorem padTo8_take_map_getD (f : List Char → ℕ) (toks : List (List Char)) (k : ℕ)
    (hk : k < 8) :
    (padTo8 ((toks.map f).take 8)).getD k 0 =
      if k < toks.length then f (toks.getD k []) else 0 := by
  have hlen : ((toks.map f).take 8).length = min 8 toks.length := by simp
  rw [List.getD_eq_getElem?_getD, padTo8]
  by_cases hkt : k < toks.length
  · have hkl : k < ((toks.map f).take 8).length := by omega
    rw [List.getElem?_append_left hkl, List.getElem?_take, if_pos hk, List.getElem?_map,
      List.getElem?_eq_getElem hkt]
    simp [if_pos hkt, List.getD_eq_getElem?_getD, List.getElem?_eq_getElem hkt]
  · have hkl : ((toks.map f).take 8).length ≤ k := by omega
    rw [List.getElem?_append_right hkl, List.getElem?_replicate,
      if_pos (by omega : k - ((toks.map f).take 8).length < 8 - ((toks.map f).take 8).length)]
    simp [hkt]

/-! ## Claim theorems -/

/-- C1: for every non-empty sequence of decoded readings, each of the 8
per-channel averages equals the channel sum divided by the reading count
rounded half up, and the overall average is the rounded mean of the 8 rounded
per-channel averages (two-stage rounding).  The second conjunct exhibits a
reading sequence on which this two-stage result differs from the rounded mean
of the raw samples, so the overall average is not the rounded raw mean. -/
theorem C1_two_stage_rounding :
    (∀ pd : List Reading, pd ≠ [] →
      (∀ i : Fin 8, (averages pd).getD i.val 0 =
          roundHalfUp (channelTotal pd i) pd.length) ∧
      totalAverage pd = roundHalfUp (averages pd).sum 8) ∧
    (∃ pd : List Reading, pd ≠ [] ∧
      totalAverage pd ≠ roundHalfUp (rawTotal pd) (8 * pd.length)) := by
  constructor
  · intro pd hpd
    have hn : 0 < pd.length := List.length_pos.mpr hpd
    constructor
    · intro i
      rw [averages_getD, sums_apply, jsRound_eq_roundHalfUp _ _ hn]
    · rw [totalAverage_eq, jsRound_eq_roundHalfUp _ _ (by norm_num)]
  · exact ⟨pdTwoStage, by simp [pdTwoStage], by decide⟩

/-- C1 witness: the two-stage characterisation instantiated at the concrete
three-reading sequence `pdTwoStage`. -/
theorem C1_witness :
    (∀ i : Fin 8, (averages pdTwoStage).getD i.val 0 =
        roundHalfUp (channelTotal pdTwoStage i) pdTwoStage.length) ∧
    totalAverage pdTwoStage = roundHalfUp (averages pdTwoStage).sum 8 :=
  C1_two_stage_rounding.1 pdTwoStage (by simp [pdTwoStage])

/-- C6: for every non-empty reading sequence the reported peak channel is an
index below 8 whose rounded average attains the maximum of the 8 rounded
averages, and no smaller index attains that maximum (lowest index wins). -/
theorem C6_peak_argmax (pd : List Reading) (hpd : pd ≠ []) :
    maxIndex pd < 8 ∧
    (averages pd).getD (maxIndex pd) 0 = maxValue pd ∧
    (∀ v ∈ averages pd, v ≤ maxValue pd) ∧
    ∀ j < maxIndex pd, (averages pd).getD j 0 ≠ maxValue pd := by
  have hmem : maxValue pd ∈ averages pd := listMax_mem _ (averages_ne_nil pd)
  refine ⟨?_, getD_listIndexOf _ _ hmem, fun v hv => le_listMax _ _ hv,
    fun j hj => listIndexOf_min _ _ _ hj⟩
  have h := listIndexOf_lt_length _ _ hmem
  rwa [averages_length] at h

/-- C6 witness: at the single reading with channel values 100, 100, 50, 0, ...,
the argmax characterisation holds and the peak index is 0, not 1. -/
theorem C6_witness :
    (maxIndex [rTie] < 8 ∧
      (averages [rTie]).getD (maxIndex [rTie]) 0 = maxValue [rTie] ∧
      (∀ v ∈ averages [rTie], v ≤ maxValue [rTie]) ∧
      ∀ j < maxIndex [rTie], (averages [rTie]).getD j 0 ≠ maxValue [rTie]) ∧
    maxIndex [rTie] = 0 ∧ maxValue [rTie] = 100 :=
  ⟨C6_peak_argmax [rTie] (by simp), by decide⟩

/-- C10: for every non-empty reading sequence the overall average lies between
some member and some member of the 8 rounded per-channel averages (hence
between their minimum and maximum, inclusive), and the reported peak value is
a member of the averages that bounds all of them (their maximum). -/
theorem C10_overall_between (pd : List Reading) (hpd : pd ≠ []) :
    ((∃ v ∈ averages pd, v ≤ totalAverage pd) ∧
      ∃ v ∈ averages pd, totalAverage pd ≤ v) ∧
    maxValue pd ∈ averages pd ∧ ∀ v ∈ averages pd, v ≤ maxValue pd := by
  have hmax : maxValue pd ∈ averages pd := listMax_mem _ (averages_ne_nil pd)
  have hub : ∀ v ∈ averages pd, v ≤ maxValue pd := fun v hv => le_listMax _ _ hv
  obtain ⟨m, hm, hmin⟩ := exists_min_mem (averages pd) (averages_ne_nil pd)
  have hlen := averages_length pd
  have hsum_le : (averages pd).sum ≤ 8 * maxValue pd := by
    have h := sum_le_length_mul (averages pd) (maxValue pd) hub
    rwa [hlen] at h
  have hle_sum : 8 * m ≤ (averages pd).sum := by
    have h := length_mul_le_sum (averages pd) m hmin
    rwa [hlen] at h
  have htot := totalAverage_eq pd
  refine ⟨⟨⟨m, hm, ?_⟩, ⟨maxValue pd, hmax, ?_⟩⟩, hmax, hub⟩
  · rw [htot]
    unfold jsRound
    omega
  · rw [htot]
    unfold jsRound
    omega

/-- C10 witness: the bounds instantiated at the 100, 100, 50, 0, ... reading,
where the overall average evaluates to 31. -/
theorem C10_witness :
    (((∃ v ∈ averages [rTie], v ≤ totalAverage [rTie]) ∧
      ∃ v ∈ averages [rTie], totalAverage [rTie] ≤ v) ∧
     maxValue [rTie] ∈ averages [rTie] ∧ ∀ v ∈ averages [rTie], v ≤ maxValue [rTie]) ∧
    totalAverage [rTie] = 31 :=
  ⟨C10_overall_between [rTie] (by simp), by decide⟩

theorem clampList_shape (toks : List (List Char)) :
    (padTo8 ((toks.map clampToken).take 8)).length = 8 ∧
    ∀ x ∈ padTo8 ((toks.map clampToken).take 8), x ≤ U32MAX := by
  constructor
  · exact padTo8_length _ (by simp)
  · intro x hx
    rcases mem_padTo8 _ _ hx with h | rfl
    · obtain ⟨tok, _, rfl⟩ := List.mem_map.mp (List.mem_of_mem_take h)
      exact clampToken_le tok
    · exact Nat.zero_le _

theorem parseTagged_shape (text : List Char) (r : List ℕ)
    (h : parseTagged text = some r) : r.length = 8 ∧ ∀ x ∈ r, x ≤ U32MAX := by
  unfold parseTagged at h
  split at h
  · split at h
    · obtain rfl : _ = r := Option.some.inj h
      exact clampList_shape _
    · exact absurd h (by simp)
  · exact absurd h (by simp)

theorem parseCSV_shape (text : List Char) (r : List ℕ)
    (h : parseCSV text = some r) : r.length = 8 ∧ ∀ x ∈ r, x ≤ U32MAX := by
  unfold parseCSV at h
  split at h
  · dsimp only at h
    split at h
    · obtain rfl : _ = r := Option.some.inj h
      exact clampList_shape _
    · exact absurd h (by simp)
  · exact absurd h (by simp)

theorem parseBin32_shape (bytes : List ℕ) (r : List ℕ)
    (hbytes : ∀ b ∈ bytes, b < 256)
    (h : parseBin32 bytes = some r) : r.length = 8 ∧ ∀ x ∈ r, x ≤ U32MAX := by
  unfold parseBin32 at h
  split at h
  · obtain rfl : _ = r := Option.some.inj h
    refine ⟨?_, u32List_le bytes hbytes⟩
    rw [u32List_length]
    omega
  · exact absurd h (by simp)

theorem parseBin8_shape (bytes : List ℕ) (r : List ℕ)
    (hbytes : ∀ b ∈ bytes, b < 256)
    (h : parseBin8 bytes = some r) : r.length = 8 ∧ ∀ x ∈ r, x ≤ U32MAX := by
  unfold parseBin8 at h
  split at h
  · obtain rfl : _ = r := Option.some.inj h
    exact ⟨by omega, fun x hx => by have := hbytes x hx; unfold U32MAX; omega⟩
  · exact absurd h (by simp)

/-- C9: whenever the decoder succeeds through any of its accepting branches
(tagged CSV, untagged CSV, 32-byte binary, 8-byte binary), the delivered array
has length exactly 8 and every element lies in the interval [0, 2^32 - 1]. -/
theorem C9_decoder_output_shape (text : List Char) (bytes : List ℕ) (out : List ℕ)
    (hbytes : ∀ b ∈ bytes, b < 256)
    (h : handleCharacteristicValueChanged text bytes = some out) :
    out.length = 8 ∧ ∀ x ∈ out, x ≤ U32MAX := by
  unfold handleCharacteristicValueChanged at h
  split at h
  next r heq =>
    obtain rfl := Option.some.inj h
    exact parseTagged_shape text _ heq
  next htag =>
    split at h
    next r heq =>
      obtain rfl := Option.some.inj h
      exact parseCSV_shape text _ heq
    next hcsv =>
      split at h
      next r heq =>
        obtain rfl := Option.some.inj h
        exact parseBin32_shape bytes _ hbytes heq
      next hbin => exact parseBin8_shape bytes _ hbytes h

/-- C9 witness: the shape property instantiated at the text payload 1,2,3,4
with no usable byte form, which decodes to the padded frame 1,2,3,4,0,0,0,0. -/
theorem C9_witness :
    ([1, 2, 3, 4, 0, 0, 0, 0] : List ℕ).length = 8 ∧
    ∀ x ∈ ([1, 2, 3, 4, 0, 0, 0, 0] : List ℕ), x ≤ U32MAX :=
  C9_decoder_output_shape (("1,2,3,4").data) [] [1, 2, 3, 4, 0, 0, 0, 0]
    (by simp) (by decide)

theorem tagLeft_append_ne_nil (rest : List Char) : tagLeft ++ rest ≠ [] := by
  intro hnil
  exact absurd (List.append_eq_nil.mp hnil).1 (by decide)

theorem tagRight_append_ne_nil (rest : List Char) : tagRight ++ rest ≠ [] := by
  intro hnil
  exact absurd (List.append_eq_nil.mp hnil).1 (by decide)

/-- C3 (amended): a payload of the form tag ++ rest with a non-empty,
line-terminator-free rest is never rejected; the delivered frame has length 8,
its k-th entry is the k-th comma token of the trimmed rest converted by the
token rule (non-parsing tokens become 0, parsed integers are clamped to the
nearest boundary of [0, U32MAX]) when such a token exists, tokens beyond the
first 8 are discarded, and missing positions are right-padded with 0. -/
theorem C3_tagged_frame (tag rest : List Char) (bytes : List ℕ)
    (htag : tag = tagLeft ∨ tag = tagRight) (h1 : rest ≠ [])
    (h2 : ∀ c ∈ rest, isLineTerm c = false) :
    ∃ out, handleCharacteristicValueChanged (tag ++ rest) bytes = some out ∧
      out.length = 8 ∧
      ∀ k : ℕ, k < 8 →
        out.getD k 0 =
          if k < (splitOnComma (jsTrim rest)).length then
            specToken ((splitOnComma (jsTrim rest)).getD k [])
          else 0 := by
  have hcap : regexCapture tagLeft tagRight (tag ++ rest) = some rest := by
    rcases htag with rfl | rfl
    · exact regexCapture_first _ _ _ _ (tagLeft_append_ne_nil rest)
        (captureAfter_self _ _ h1 h2)
    · exact regexCapture_second _ _ _ _ (tagRight_append_ne_nil rest)
        rfl (captureAfter_self _ _ h1 h2)
  have hgate : (containsChars tagLeft (tag ++ rest) ||
      containsChars tagRight (tag ++ rest)) = true := by
    rcases htag with rfl | rfl
    · rw [containsChars_append_self _ _ (by decide)]
      simp
    · rw [containsChars_append_self _ _ (by decide)]
      simp
  have hparse : parseTagged (tag ++ rest) =
      some (padTo8 (((splitOnComma (jsTrim rest)).map clampToken).take 8)) := by
    unfold parseTagged
    rw [hgate, hcap]
    simp
  refine ⟨padTo8 (((splitOnComma (jsTrim rest)).map clampToken).take 8), ?_,
    (clampList_shape _).1, ?_⟩
  · unfold handleCharacteristicValueChanged
    rw [hparse]
  · intro k hk
    rw [show clampToken = specToken from funext clampToken_eq_specToken]
    exact padTo8_take_map_getD specToken _ k hk

/-- C3 counterexample: the numeric out-of-range token 4294967296 parses as an
integer above U32MAX, and the decoder delivers the clamped boundary value
U32MAX for it, not 0, refuting the claim as stated. -/
theorem C3_counterexample :
    handleCharacteristicValueChanged (("PRESSURE_LEFT:4294967296,1,2,3,4,5,6,7").data) [] =
      some [U32MAX, 1, 2, 3, 4, 5, 6, 7] ∧
    jsParseInt (("4294967296").data) = some 4294967296 ∧
    (U32MAX : ℤ) < 4294967296 ∧ U32MAX ≠ 0 := by decide

/-- C3 witness: the amended tagged-frame characterisation instantiated at the
payload PRESSURE_LEFT:50,100 with no byte fallback. -/
theorem C3_witness :
    ∃ out, handleCharacteristicValueChanged (tagLeft ++ ("50,100").data) [] = some out ∧
      out.length = 8 ∧
      ∀ k : ℕ, k < 8 →
        out.getD k 0 =
          if k < (splitOnComma (jsTrim (("50,100").data))).length then
            specToken ((splitOnComma (jsTrim (("50,100").data))).getD k [])
          else 0 :=
  C3_tagged_frame tagLeft (("50,100").data) [] (Or.inl rfl) (by decide) (by decide)

/-- C2 (amended): for a comma-containing payload without a PRESSURE tag, the
decoder accepts if and only if the trimmed text splits into at least 4
comma-separated tokens (whether or not they parse as integers), or the raw
byte form has length 32 or 8 and a binary fallback fires. -/
theorem C2_csv_acceptance (text : List Char) (bytes : List ℕ)
    (hcomma : text.contains ',' = true)
    (hL : containsChars tagLeft text = false)
    (hR : containsChars tagRight text = false) :
    (handleCharacteristicValueChanged text bytes).isSome = true ↔
      (4 ≤ (splitOnComma (jsTrim text)).length ∨
        bytes.length = 32 ∨ bytes.length = 8) := by
  have htagged : parseTagged text = none := by
    unfold parseTagged
    rw [hL, hR]
    simp
  unfold handleCharacteristicValueChanged
  rw [htagged]
  by_cases h4 : 4 ≤ (splitOnComma (jsTrim text)).length
  · have hcsv : parseCSV text =
        some (padTo8 (((splitOnComma (jsTrim text)).map clampToken).take 8)) := by
      have hlen4 : 4 ≤ (((splitOnComma (jsTrim text)).map clampToken).take 8).length := by
        simp only [List.length_take, List.length_map]
        omega
      unfold parseCSV
      rw [hcomma]
      dsimp only
      rw [if_pos hlen4]
      simp
    rw [hcsv]
    simp [h4]
  · have hcsv : parseCSV text = none := by
      have hlen4 : ¬ 4 ≤ (((splitOnComma (jsTrim text)).map clampToken).take 8).length := by
        simp only [List.length_take, List.length_map]
        omega
      unfold parseCSV
      rw [hcomma]
      dsimp only
      rw [if_neg hlen4]
      simp
    rw [hcsv]
    by_cases h32 : bytes.length = 32
    · have hb : parseBin32 bytes = some (u32List bytes) := by
        unfold parseBin32
        rw [if_pos h32]
      rw [hb]
      simp [h32]
    · have hb : parseBin32 bytes = none := by
        unfold parseBin32
        rw [if_neg h32]
      rw [hb]
      by_cases h8 : bytes.length = 8
      · have hb8 : parseBin8 bytes = some bytes := by
          unfold parseBin8
          rw [if_pos h8]
        rw [hb8]
        simp [h8]
      · have hb8 : parseBin8 bytes = none := by
          unfold parseBin8
          rw [if_neg h8]
        rw [hb8]
        simp [h4, h32, h8]

/-- C2 counterexample: the payload a,b,c,d — four comma-separated tokens, none
of which parses as an integer — is accepted by the decoder, which delivers an
all-zero frame, refuting the claim that fewer than 4 integer-parsing tokens
lead to rejection. -/
theorem C2_counterexample :
    handleCharacteristicValueChanged (("a,b,c,d").data) [97, 44, 98, 44, 99, 44, 100] =
      some [0, 0, 0, 0, 0, 0, 0, 0] ∧
    ((splitOnComma (jsTrim (("a,b,c,d").data))).filter
        (fun t => (jsParseInt (jsTrim t)).isSome)).length = 0 := by decide

/-- C2 witness: the amended acceptance condition instantiated at the two-token
text a,b paired with an 8-byte buffer, accepted through the binary fallback. -/
theorem C2_witness :
    (handleCharacteristicValueChanged (("a,b").data) [1, 2, 3, 4, 5, 6, 7, 8]).isSome = true ↔
      (4 ≤ (splitOnComma (jsTrim (("a,b").data))).length ∨
        ([1, 2, 3, 4, 5, 6, 7, 8] : List ℕ).length = 32 ∨
        ([1, 2, 3, 4, 5, 6, 7, 8] : List ℕ).length = 8) :=
  C2_csv_acceptance (("a,b").data) [1, 2, 3, 4, 5, 6, 7, 8] (by decide) (by decide) (by decide)

/-- C4 (amended): stop() on a session with zero buffered readings stops the
timer and recording but leaves the completion flag and every summary field
(averages, peak point, overall average) untouched — the session returns to the
idle configuration, not the Completed one, and no SummaryResult is produced —
and appends the distinct no-data log entry, which carries the [WARNING] tag
and not the [ERROR] tag. -/
theorem C4_empty_stop (s : AppState) (h : s.pressureData = []) :
    stopMeasurement s =
      { s with isRecording := false, timerActive := false,
               consoleLog := s.consoleLog ++ [MSG_NODATA] } ∧
    (stopMeasurement s).testCompleted = s.testCompleted ∧
    (stopMeasurement s).averagePressures = s.averagePressures ∧
    (stopMeasurement s).maxPressurePoint = s.maxPressurePoint ∧
    (stopMeasurement s).averagePressure = s.averagePressure ∧
    startsWithChars (("[WARNING]").data) MSG_NODATA = true ∧
    containsChars (("[ERROR]").data) MSG_NODATA = false := by
  have hstop : stopMeasurement s =
      { s with isRecording := false, timerActive := false,
               consoleLog := s.consoleLog ++ [MSG_NODATA] } := by
    unfold stopMeasurement
    rw [h]
    simp
  refine ⟨hstop, ?_, ?_, ?_, ?_, by decide, by decide⟩ <;> rw [hstop]

/-- C4 counterexample: stopping the concrete connected recording session with
zero buffered readings leaves testCompleted false — the code's only completion
marker — so the session does not transition to the Completed configuration,
while the no-data warning is still logged. -/
theorem C4_counterexample :
    c4state.isRecording = true ∧ c4state.pressureData = [] ∧
    (stopMeasurement c4state).testCompleted = false ∧
    (stopMeasurement c4state).isRecording = false ∧
    (stopMeasurement c4state).consoleLog = [MSG_NODATA] :=
  ⟨rfl, rfl, rfl, rfl, rfl⟩

/-- C4 witness: the amended empty-stop characterisation instantiated at the
concrete empty recording session. -/
theorem C4_witness :
    stopMeasurement c4state =
      { c4state with isRecording := false, timerActive := false,
                     consoleLog := c4state.consoleLog ++ [MSG_NODATA] } ∧
    (stopMeasurement c4state).testCompleted = c4state.testCompleted ∧
    (stopMeasurement c4state).averagePressures = c4state.averagePressures ∧
    (stopMeasurement c4state).maxPressurePoint = c4state.maxPressurePoint ∧
    (stopMeasurement c4state).averagePressure = c4state.averagePressure ∧
    startsWithChars (("[WARNING]").data) MSG_NODATA = true ∧
    containsChars (("[ERROR]").data) MSG_NODATA = false :=
  C4_empty_stop c4state rfl

/-- C5 (amended): start() enforces only the connection precondition.  With no
live connection it is a no-op (state unchanged, even when already recording);
with a live connection it always proceeds — in particular while already in the
Recording state — silently resetting the sample buffer to empty, the averages
to zero and the remaining time to 20, and stays recording, rather than failing
with a precondition error. -/
theorem C5_start_reset (s : AppState) :
    (s.bleConnected = false → startMeasurement s = s) ∧
    (s.bleConnected = true →
      startMeasurement s =
        { s with isRecording := true, testCompleted := false, pressureData := [],
                 averagePressures := List.replicate 8 0,
                 consoleLog := s.consoleLog ++ [MSG_START1, MSG_START2],
                 timeRemaining := 20, timerActive := true }) := by
  constructor <;> intro h <;> simp [startMeasurement, h]

/-- C5 counterexample: on the concrete connected session that is already
recording with one buffered reading and 7 seconds remaining, start() does not
fail: it empties the buffered reading sequence and resets the remaining time
to 20, refuting the claim that the state is left unchanged. -/
theorem C5_counterexample :
    c5state.isRecording = true ∧ c5state.bleConnected = true ∧
    c5state.pressureData.length = 1 ∧ c5state.timeRemaining = 7 ∧
    (startMeasurement c5state).pressureData.length = 0 ∧
    (startMeasurement c5state).timeRemaining = 20 ∧
    (startMeasurement c5state).isRecording = true :=
  ⟨rfl, rfl, rfl, rfl, rfl, rfl, rfl⟩

/-- C5 witness: the amended start-reset characterisation instantiated at the
concrete recording session. -/
theorem C5_witness :
    startMeasurement c5state =
      { c5state with isRecording := true, testCompleted := false, pressureData := [],
                     averagePressures := List.replicate 8 0,
                     consoleLog := c5state.consoleLog ++ [MSG_START1, MSG_START2],
                     timeRemaining := 20, timerActive := true } :=
  (C5_start_reset c5state).2 rfl

theorem tagLeftSp_append_ne_nil (rest : List Char) : tagLeftSp ++ rest ≠ [] := by
  intro hnil
  exact absurd (List.append_eq_nil.mp hnil).1 (by decide)

theorem tagRightSp_append_ne_nil (rest : List Char) : tagRightSp ++ rest ≠ [] := by
  intro hnil
  exact absurd (List.append_eq_nil.mp hnil).1 (by decide)

/-- C7 (amended): for a line formed by a PRESSURE_LEFT:/PRESSURE_RIGHT: tag
(with the following space) and a non-empty, line-terminator-free remainder,
the validator returns true if and only if the remainder splits into exactly 8
comma-separated tokens and every token converts to a number (sign
unrestricted: Number() accepting the token is all that is checked). -/
theorem C7_validator_iff (tag rest : List Char)
    (htag : tag = tagLeftSp ∨ tag = tagRightSp) (h1 : rest ≠ [])
    (h2 : ∀ c ∈ rest, isLineTerm c = false) :
    isValidPressureData (tag ++ rest) = true ↔
      ((splitOnComma rest).length = 8 ∧
        ∀ v ∈ splitOnComma rest, jsNumberValid (jsTrim v) = true) := by
  have hcap : regexCapture tagLeftSp tagRightSp (tag ++ rest) = some rest := by
    rcases htag with rfl | rfl
    · exact regexCapture_first _ _ _ _ (tagLeftSp_append_ne_nil rest)
        (captureAfter_self _ _ h1 h2)
    · exact regexCapture_second _ _ _ _ (tagRightSp_append_ne_nil rest)
        rfl (captureAfter_self _ _ h1 h2)
  have hmark : containsChars pressureMark (tag ++ rest) = true := by
    rcases htag with rfl | rfl
    · rw [show tagLeftSp ++ rest = pressureMark ++ (("LEFT: ").data ++ rest) by
        rw [← List.append_assoc]; rfl]
      exact containsChars_append_self _ _ (by decide)
    · rw [show tagRightSp ++ rest = pressureMark ++ (("RIGHT: ").data ++ rest) by
        rw [← List.append_assoc]; rfl]
      exact containsChars_append_self _ _ (by decide)
  unfold isValidPressureData
  rw [hmark, hcap]
  simp [Bool.and_eq_true, List.all_eq_true]

/-- C7 counterexample: the line PRESSURE_LEFT: -1,2,3,4,5,6,7,8 is accepted by
the validator although its first token is -1, which parses as the negative
number -1 and not as a non-negative number, refuting the claim as stated. -/
theorem C7_counterexample :
    isValidPressureData (("PRESSURE_LEFT: -1,2,3,4,5,6,7,8").data) = true ∧
    (splitOnComma (("-1,2,3,4,5,6,7,8").data)).getD 0 [] = ("-1").data ∧
    jsNumber (jsTrim (("-1").data)) = some (JsNum.dec true 1 0 0) ∧
    ¬ (JsNum.dec true 1 0 0).IsNonneg := by
  refine ⟨by decide, by decide, by decide, ?_⟩
  simp only [JsNum.IsNonneg, if_pos]
  norm_num

/-- C7 witness: the amended validator characterisation instantiated at the
well-formed line PRESSURE_LEFT: 1,2,3,4,5,6,7,8, together with the claim's
negative example PRESSURE_LEFT: 1,2,3 evaluating to false. -/
theorem C7_witness :
    (isValidPressureData (tagLeftSp ++ ("1,2,3,4,5,6,7,8").data) = true ↔
      ((splitOnComma (("1,2,3,4,5,6,7,8").data)).length = 8 ∧
        ∀ v ∈ splitOnComma (("1,2,3,4,5,6,7,8").data), jsNumberValid (jsTrim v) = true)) ∧
    isValidPressureData (("PRESSURE_LEFT: 1,2,3").data) = false :=
  ⟨C7_validator_iff tagLeftSp (("1,2,3,4,5,6,7,8").data) (Or.inl rfl)
    (by decide) (by decide), by decide⟩
